import Mathlib

/-!
Verification development for the smtp2graph SMTP-to-Graph relay.

The definitions below are a shallow embedding of the Go sources:
  - `Session.mail`, `Session.rcpt`, `Session.data`, `Session.reset`,
    `Session.authPlain` embed the SMTP command handlers of main.go
    (Session.Mail / Session.Rcpt / Session.Data / Session.Reset and the
    sasl PLAIN callback inside Session.Auth);
  - `reconcile` (with `patchBcc` / `patchFrom`) embeds the envelope
    reconciliation block of Session.Data (main.go lines 322-368);
  - `composeFallback` embeds the fallback message synthesis of
    Session.Data (main.go lines 300-315);
  - `getCachedToken` embeds GraphMailHandler.getCachedToken
    (graphmailhandler.go lines 70-87);
  - `sendRawMimeMail` embeds the status handling of sendRawMimeMail
    (graphmailhandler.go lines 119-140).

External library code (Go net/mail parsing and rendering, net/textproto
header reading) is embedded either abstractly (an `AddrParser` record over
which theorems quantify) or as a restricted executable model (`readMessage`,
`Address.render`, `simpleAddrParser`) that agrees with the stdlib on the
simple inputs used in concrete witnesses: plain addr-spec address lists and
header blocks without continuation lines.

Effects are made explicit: the io.ReadAll outcome, the token source reply
and the HTTP response are inputs; mutation of the Session / token cache is
explicit state passing (each operation returns the new state).
-/

deriving instance DecidableEq for Except

namespace Smtp2Graph

/-- Embeds Go net/mail Address: an optional display name plus an
addr-spec string. -/
structure Address where
  name : String
  address : String
deriving DecidableEq, Repr

/-- Models net/mail Address.String for display names that need no
encoding: an empty name renders as the bracketed addr-spec, a non-empty
name is quoted in front of it.  Concrete witnesses only use empty names,
where this coincides exactly with the stdlib. -/
def Address.render (a : Address) : String :=
  if a.name = "" then "<" ++ a.address ++ ">"
  else "\"" ++ a.name ++ "\" <" ++ a.address ++ ">"

/-- Abstract interface of the net/mail address parsing used by the code:
mail.ParseAddress and Header.AddressList-style list parsing.  Theorems
about the handlers quantify over this record. -/
structure AddrParser where
  parseOne : String → Option Address
  parseList : String → Option (List Address)

/-- Whitespace test used by the simple parser model. -/
def wsChar (c : Char) : Bool :=
  c = ' ' ∨ c = '\t' ∨ c = '\r' ∨ c = '\n'

/-- Strips leading and trailing whitespace from a character list. -/
def trimWS (l : List Char) : List Char :=
  ((l.dropWhile wsChar).reverse.dropWhile wsChar).reverse

/-- Splits a character list on a separator character; the separator is
consumed, empty fields are kept. -/
def splitChar (sep : Char) : List Char → List (List Char)
  | [] => [[]]
  | c :: cs =>
    if c = sep then [] :: splitChar sep cs
    else
      match splitChar sep cs with
      | t :: ts => (c :: t) :: ts
      | [] => [[c]]

/-- Models net/mail ParseAddress restricted to plain addr-spec tokens
(no display name, no angle brackets): the trimmed token must be nonempty,
contain exactly one at-sign away from either end, and no whitespace or
special characters.  Used only to instantiate witnesses at concrete
inputs on which the stdlib parser agrees. -/
def parseAddrSpec (s : String) : Option Address :=
  let t := trimWS s.data
  if t ≠ [] ∧ t.count '@' = 1 ∧ t.head? ≠ some '@' ∧ t.getLast? ≠ some '@' ∧
      t.all (fun c =>
        ¬ (c = ' ' ∨ c = '\t' ∨ c = ',' ∨ c = '<' ∨ c = '>' ∨ c = '"' ∨
           c = '(' ∨ c = ')' ∨ c = ';' ∨ c = ':' ∨ c = '\\' ∨ c = '\r' ∨ c = '\n')) then
    some ⟨"", ⟨t⟩⟩
  else
    none

/-- Models net/mail ParseAddressList on comma-separated plain addr-spec
tokens; a blank string is a parse error, matching the stdlib. -/
def parseAddressList (s : String) : Option (List Address) :=
  if trimWS s.data = [] then none
  else ((splitChar ',' s.data).map (fun t => parseAddrSpec ⟨t⟩)).mapM id

/-- Concrete parser instance used in witnesses and in the executable
Session.data embedding. -/
def simpleAddrParser : AddrParser :=
  ⟨parseAddrSpec, parseAddressList⟩

/-- Embeds Go mail.Header (map from canonical key to the ordered list of
values); represented by its lookup function.  Keys are used in canonical
form, as the source always does. -/
structure MailHeader where
  values : String → List String

/-- Embeds textproto MIMEHeader.Get: the first value for the key, or the
empty string. -/
def MailHeader.get (h : MailHeader) (k : String) : String :=
  (h.values k).headD ""

/-- Embeds Go map assignment on the header: replaces the value list of one
key. -/
def MailHeader.set (h : MailHeader) (k : String) (vs : List String) : MailHeader :=
  ⟨fun q => if q = k then vs else h.values q⟩

/-- Embeds mail.Header.AddressList: parse the Get of the key as an address
list. -/
def MailHeader.addressList (P : AddrParser) (h : MailHeader) (k : String) :
    Option (List Address) :=
  P.parseList (h.get k)

/-- Embeds Go mail.Message: the header mapping plus the body bytes. -/
structure Message where
  header : MailHeader
  body : String

/-- Embeds Go strings.Join with separator comma-space, as used for the
fallback To line and the missing-recipient Bcc patch. -/
def joinComma : List String → String
  | [] => ""
  | [x] => x
  | x :: y :: xs => x ++ ", " ++ joinComma (y :: xs)

/-! ### Model of mail.ReadMessage (header block followed by a body)

Go textproto reads header lines up to an empty line; each line is split at
the first colon, the value has leading blanks stripped.  The model below
covers header blocks without continuation lines and without key
canonicalization (the composed inputs of this development only use keys
already in canonical form). -/

/-- Splits a character list at the first occurrence of the target
character (the target is consumed); fails when the target is absent. -/
def splitAtChar (target : Char) : List Char → Option (List Char × List Char)
  | [] => none
  | c :: cs =>
    if c = target then some ([], cs)
    else
      match splitAtChar target cs with
      | some (l, r) => some (c :: l, r)
      | none => none

/-- Removes a single trailing carriage return, as textproto does after
reading a line up to the newline. -/
def dropTrailingCR (l : List Char) : List Char :=
  if l.getLast? = some '\r' then l.dropLast else l

/-- Reads one wire line: everything up to the first newline, with a
trailing carriage return removed; fails at end of input. -/
def readLine (s : List Char) : Option (List Char × List Char) :=
  match splitAtChar '\n' s with
  | some (l, r) => some (dropTrailingCR l, r)
  | none => none

/-- Strips leading blanks and tabs, as textproto does for header values. -/
def dropLeadingWS : List Char → List Char
  | [] => []
  | c :: cs => if c = ' ' ∨ c = '\t' then dropLeadingWS cs else c :: cs

/-- Parses one header line into key and value: split at the first colon,
strip the leading blanks of the value.  A line starting with a blank would
be a continuation line, which this restricted model rejects. -/
def parseHeaderLine (l : List Char) : Option (String × String) :=
  match l with
  | [] => none
  | c :: cs =>
    if c = ' ' ∨ c = '\t' then none
    else
      match splitAtChar ':' (c :: cs) with
      | some (k, v) => if k = [] then none else some (⟨k⟩, ⟨dropLeadingWS v⟩)
      | none => none

/-- Reads header lines until the empty line, returning the entries in
order and the remaining characters (the body).  Fuel bounds the recursion;
every step consumes at least one character, so input length plus one
suffices. -/
def readHeaders : Nat → List Char → Option (List (String × String) × List Char)
  | 0, _ => none
  | fuel + 1, s =>
    match readLine s with
    | none => none
    | some (line, rest) =>
      if line = [] then some ([], rest)
      else
        match parseHeaderLine line with
        | none => none
        | some kv =>
          match readHeaders fuel rest with
          | some (entries, body) => some (kv :: entries, body)
          | none => none

/-- Builds the header mapping from parsed entries: values of a key are the
entry values with that key, in order of appearance, as the Go map of value
slices ends up after reading. -/
def MailHeader.ofEntries (es : List (String × String)) : MailHeader :=
  ⟨fun k => (es.filter (fun e => e.1 = k)).map (fun e => e.2)⟩

/-- Models mail.ReadMessage on the restricted input class: header entries
then the verbatim remainder as body. -/
def readMessage (s : String) : Option Message :=
  match readHeaders (s.data.length + 1) s.data with
  | some (entries, body) => some ⟨MailHeader.ofEntries entries, ⟨body⟩⟩
  | none => none

/-! ### Envelope reconciliation (Session.Data, main.go lines 322-368) -/

/-- Embeds the recipient-set loop of Session.Data: the addresses found in
the To, Cc and Bcc headers; a header whose value fails to parse as an
address list contributes nothing. -/
def collectHeaderAddresses (P : AddrParser) (h : MailHeader) : List String :=
  (["To", "Cc", "Bcc"]).foldl (fun acc k =>
    match MailHeader.addressList P h k with
    | some addrs => acc ++ addrs.map Address.address
    | none => acc) []

/-- Embeds the missing-recipient loop of Session.Data: envelope recipients
whose address is not in the collected set, rendered, in arrival order with
duplicates preserved. -/
def missingRecipients (P : AddrParser) (h : MailHeader) (rcpts : List Address) :
    List String :=
  (rcpts.filter (fun r => ¬ r.address ∈ collectHeaderAddresses P h)).map Address.render

/-- Embeds the Bcc patch of Session.Data (main.go lines 339-350): when
recipients are missing, append them comma-separated to the existing Bcc
value, or create the Bcc header. -/
def patchBcc (P : AddrParser) (h : MailHeader) (rcpts : List Address) : MailHeader :=
  let missing := missingRecipients P h rcpts
  if missing.isEmpty then h
  else
    let oldBcc := h.get "Bcc"
    let missingStr := joinComma missing
    if oldBcc ≠ "" then h.set "Bcc" [oldBcc ++ ", " ++ missingStr]
    else h.set "Bcc" [missingStr]

/-- Embeds the found flag of the From check in Session.Data: the From
header parses to an address list containing the envelope sender's
address. -/
def fromFound (P : AddrParser) (h : MailHeader) (sender : Address) : Bool :=
  match P.parseList (h.get "From") with
  | some addrs => addrs.any (fun a => a.address = sender.address)
  | none => false

/-- Embeds the From patch of Session.Data (main.go lines 352-368): if the
sender is not found in the From header, overwrite From with the rendered
sender.  The surrounding nil-check on the sender always holds at this
point (Session.Data has already required a sender). -/
def patchFrom (P : AddrParser) (h : MailHeader) (sender : Address) : MailHeader :=
  if fromFound P h sender then h else h.set "From" [sender.render]

/-- The complete reconciliation step of Session.Data, in source order: Bcc
patch, then From patch; the body is untouched. -/
def reconcile (P : AddrParser) (sender : Address) (rcpts : List Address)
    (m : Message) : Message :=
  { m with header := patchFrom P (patchBcc P m.header rcpts) sender }

/-! ### Fallback synthesis (Session.Data, main.go lines 300-315) -/

/-- Embeds the fallback buffer composition of Session.Data: the four fixed
header lines followed by the blank line and the raw bytes verbatim.
fromStr and toStr are the rendered sender and the comma-joined rendered
recipients, as the source computes them. -/
def composeFallback (fromStr toStr : String) (b : String) : String :=
  "From: " ++ fromStr ++ "\r\n" ++
  "To: " ++ toStr ++ "\r\n" ++
  "Subject: (no subject)\r\n" ++
  "Content-Type: text/plain; charset=utf-8\r\n" ++
  "\r\n" ++ b

/-! ### Session state machine (main.go lines 200-397) -/

/-- The configuration fields the session handlers read (config.go). -/
structure Config where
  senderEmail : String
  senderPassword : String
deriving DecidableEq, Repr

/-- Embeds the mutable Session state of main.go: the authenticated flag,
the optional sender and the recipient list. -/
structure Session where
  auth : Bool
  sender : Option Address
  recipients : List Address
deriving DecidableEq, Repr

/-- The session created by Backend.NewSession: unauthenticated, no sender,
no recipients. -/
def initialSession : Session :=
  ⟨false, none, []⟩

/-- The errors the session handlers return, one constructor per return
site in main.go. -/
inductive SMTPErr where
  | authRequired
  | senderAlreadySpecified
  | mailAfterRcpt
  | rcptBeforeMail
  | invalidSenderAddress
  | invalidRecipientAddress
  | senderNotSpecified
  | noRecipients
  | readFailed (e : String)
  | invalidMessageFormat
  | relayFailed (e : String)
deriving DecidableEq, Repr

/-- The SMTP status code attached to each error by newSMTPError; a read
failure is returned raw, without a status. -/
def SMTPErr.code : SMTPErr → Nat
  | .authRequired => 530
  | .senderAlreadySpecified => 503
  | .mailAfterRcpt => 503
  | .rcptBeforeMail => 503
  | .invalidSenderAddress => 550
  | .invalidRecipientAddress => 550
  | .senderNotSpecified => 503
  | .noRecipients => 503
  | .readFailed _ => 0
  | .invalidMessageFormat => 550
  | .relayFailed _ => 554

/-- Embeds the PLAIN callback inside Session.Auth (main.go lines 216-227):
constant-time equality of username and password against the configured
identity (semantically plain equality); the identity argument is ignored.
On success the authenticated flag is set; on mismatch the state is
untouched. -/
def Session.authPlain (cfg : Config) (s : Session)
    (identity username password : String) : Except String Unit × Session :=
  if username = cfg.senderEmail ∧ password = cfg.senderPassword then
    (.ok (), { s with auth := true })
  else
    (.error "invalid username or password", s)

/-- Embeds Session.Mail: authentication check, single-sender check,
no-recipients-yet check, then sender address parsing. -/
def Session.mail (P : AddrParser) (s : Session) (fromRaw : String) :
    Except SMTPErr Unit × Session :=
  if s.auth = false then (.error .authRequired, s)
  else
    match s.sender with
    | some _ => (.error .senderAlreadySpecified, s)
    | none =>
      if s.recipients ≠ [] then (.error .mailAfterRcpt, s)
      else
        match P.parseOne fromRaw with
        | none => (.error .invalidSenderAddress, s)
        | some addr => (.ok (), { s with sender := some addr })

/-- Embeds Session.Rcpt: authentication check, sender-first check, then
recipient address parsing and append. -/
def Session.rcpt (P : AddrParser) (s : Session) (toRaw : String) :
    Except SMTPErr Unit × Session :=
  if s.auth = false then (.error .authRequired, s)
  else
    match s.sender with
    | none => (.error .rcptBeforeMail, s)
    | some _ =>
      match P.parseOne toRaw with
      | none => (.error .invalidRecipientAddress, s)
      | some addr => (.ok (), { s with recipients := s.recipients ++ [addr] })

/-- Embeds Session.Data: the three precondition checks, the io.ReadAll
outcome (an explicit input), message parsing with fallback synthesis,
reconciliation, and the relay call (the handler capability is an explicit
function input whose error becomes the 554 relay failure).  The session
state is returned unchanged on every path, as the source never assigns
session fields in Data. -/
def Session.data (P : AddrParser) (relay : Message → Except String Unit)
    (s : Session) (raw : Except String String) : Except SMTPErr Unit × Session :=
  if s.auth = false then (.error .authRequired, s)
  else
    match s.sender with
    | none => (.error .senderNotSpecified, s)
    | some sender =>
      if s.recipients = [] then (.error .noRecipients, s)
      else
        match raw with
        | .error e => (.error (.readFailed e), s)
        | .ok b =>
          let parsed :=
            match readMessage b with
            | some m => some m
            | none =>
              readMessage (composeFallback sender.render
                (joinComma (s.recipients.map Address.render)) b)
          match parsed with
          | none => (.error .invalidMessageFormat, s)
          | some m =>
            match relay (reconcile P sender s.recipients m) with
            | .error e => (.error (.relayFailed e), s)
            | .ok _ => (.ok (), s)

/-- Embeds Session.Reset: clears sender and recipients, leaves the
authenticated flag. -/
def Session.reset (s : Session) : Session :=
  { s with sender := none, recipients := [] }

/-- One session command, for reachability arguments; Data carries its
read outcome and relay capability as data. -/
inductive SessionOp where
  | opAuth (identity username password : String)
  | opMail (fromRaw : String)
  | opRcpt (toRaw : String)
  | opData (raw : Except String String) (relay : Message → Except String Unit)
  | opReset
  | opLogout

/-- The state transition of one command (Logout has no state effect). -/
def applyOp (cfg : Config) (P : AddrParser) (s : Session) : SessionOp → Session
  | .opAuth i u p => (s.authPlain cfg i u p).2
  | .opMail f => (s.mail P f).2
  | .opRcpt t => (s.rcpt P t).2
  | .opData raw relay => (s.data P relay raw).2
  | .opReset => s.reset
  | .opLogout => s

/-- Runs a command sequence from a starting state. -/
def runOps (cfg : Config) (P : AddrParser) (ops : List SessionOp) (s : Session) :
    Session :=
  ops.foldl (applyOp cfg P) s

/-! ### Credential cache (graphmailhandler.go lines 70-87) -/

/-- Embeds the cached token fields of GraphMailHandler: the token string
and its expiry in Unix seconds. -/
structure TokenState where
  token : String
  tokenExp : Int
deriving DecidableEq, Repr

/-- Embeds GraphMailHandler.getCachedToken, with the clock and the token
source outcome as explicit inputs: refresh when the token is empty or
expires within sixty seconds; a source failure is returned wrapped and
leaves the cache untouched; a source success overwrites token and expiry. -/
def getCachedToken (now : Int) (source : Except String (String × Int))
    (st : TokenState) : Except String String × TokenState :=
  if st.token = "" ∨ now > st.tokenExp - 60 then
    match source with
    | .error e => (.error ("GetToken: " ++ e), st)
    | .ok (t, exp) => (.ok t, ⟨t, exp⟩)
  else
    (.ok st.token, st)

/-! ### Relay client (graphmailhandler.go lines 119-140) -/

/-- The fields of the Go http.Response the relay client reads: the numeric
status code, the status text, and the body. -/
structure HttpResponse where
  statusCode : Nat
  status : String
  body : String
deriving DecidableEq, Repr

/-- Embeds the status handling of sendRawMimeMail, with the HTTP response
an explicit input (request construction and transport are the excluded
collaborator): any status other than 202 Accepted is an error carrying the
status text and the response body. -/
def sendRawMimeMail (accessToken userID mimeMessage : String)
    (resp : HttpResponse) : Except String Unit :=
  if resp.statusCode ≠ 202 then
    .error ("sendMail failed: " ++ resp.status ++ "\n" ++ resp.body)
  else
    .ok ()

/-! ### Predicates and fixtures used by the statements -/

/-- The spec invariant: the recipient list is non-empty only if the sender
is set. -/
def senderBeforeRecipients (s : Session) : Prop :=
  s.recipients ≠ [] → s.sender ≠ none

/-- A string free of carriage returns and line feeds; rendered addresses
are of this form. -/
def cleanString (s : String) : Prop :=
  ∀ c ∈ s.data, c ≠ '\r' ∧ c ≠ '\n'

instance cleanStringDecidable (s : String) : Decidable (cleanString s) :=
  inferInstanceAs (Decidable (∀ c ∈ s.data, c ≠ '\r' ∧ c ≠ '\n'))

/-- An address whose display name and addr-spec are free of line breaks. -/
def cleanAddr (a : Address) : Prop :=
  cleanString a.name ∧ cleanString a.address

instance cleanAddrDecidable (a : Address) : Decidable (cleanAddr a) :=
  inferInstanceAs (Decidable (cleanString a.name ∧ cleanString a.address))

/-- A parsed message whose Bcc header carries two values, as
mail.ReadMessage produces for two Bcc header lines. -/
def msgTwoBcc : Message :=
  ⟨⟨fun k => if k = "Bcc" then ["a@x.com", "b@y.com"] else []⟩, "body"⟩

/-! ### Helper lemmas -/

/-- Appending strings concatenates their character lists. -/
theorem data_append_eq (a b : String) : (a ++ b).data = a.data ++ b.data := rfl

/-- Session.data never assigns a session field: the state comes back
unchanged on every path. -/
theorem data_state_unchanged (P : AddrParser) (relay : Message → Except String Unit)
    (s : Session) (raw : Except String String) :
    (Session.data P relay s raw).2 = s := by
  unfold Session.data
  repeat' (first | split | dsimp only)

/-- A failing Session.mail leaves the session unchanged (auxiliary form
over an explicit result pair). -/
theorem mail_error_state_aux (P : AddrParser) (s : Session) (f : String)
    (r : Except SMTPErr Unit) (s2 : Session)
    (he : Session.mail P s f = (r, s2)) (hr : r.isOk = false) : s2 = s := by
  unfold Session.mail at he
  repeat' split at he
  all_goals cases he
  all_goals first
    | rfl
    | simp [Except.isOk, Except.toBool] at hr

/-- A failing Session.rcpt leaves the session unchanged (auxiliary form
over an explicit result pair). -/
theorem rcpt_error_state_aux (P : AddrParser) (s : Session) (t : String)
    (r : Except SMTPErr Unit) (s2 : Session)
    (he : Session.rcpt P s t = (r, s2)) (hr : r.isOk = false) : s2 = s := by
  unfold Session.rcpt at he
  repeat' split at he
  all_goals cases he
  all_goals first
    | rfl
    | simp [Except.isOk, Except.toBool] at hr

/-! ### C1 — state after a completed transaction -/

/-- C1 (counterexample): a concrete successful Session.data run (relay
succeeds) leaves the sender set and the recipient list non-empty, contrary
to the claim that a successful submission itself clears them. -/
theorem data_success_leaves_state_counterexample :
    (Session.data simpleAddrParser (fun _ => .ok ())
        ⟨true, some ⟨"", "s@x.com"⟩, [⟨"", "r@y.com"⟩]⟩
        (.ok "To: r@y.com\r\n\r\nhi")).1 = .ok () ∧
    (Session.data simpleAddrParser (fun _ => .ok ())
        ⟨true, some ⟨"", "s@x.com"⟩, [⟨"", "r@y.com"⟩]⟩
        (.ok "To: r@y.com\r\n\r\nhi")).2.sender = some ⟨"", "s@x.com"⟩ ∧
    (Session.data simpleAddrParser (fun _ => .ok ())
        ⟨true, some ⟨"", "s@x.com"⟩, [⟨"", "r@y.com"⟩]⟩
        (.ok "To: r@y.com\r\n\r\nhi")).2.recipients = [⟨"", "r@y.com"⟩] := by
  refine ⟨?_, ?_, ?_⟩ <;> decide

/-- C1 (amended): submitData never mutates the session on any path,
success included; the clearing of sender and recipients with the
authenticated flag preserved is performed by the separate reset
operation. -/
theorem data_preserves_state_reset_clears (P : AddrParser)
    (relay : Message → Except String Unit) (s : Session)
    (raw : Except String String) :
    (Session.data P relay s raw).2 = s ∧
    (Session.reset s).auth = s.auth ∧
    (Session.reset s).sender = none ∧
    (Session.reset s).recipients = [] :=
  ⟨data_state_unchanged P relay s raw, rfl, rfl, rfl⟩

/-! ### C3 — token cache refresh condition -/

/-- C3 (counterexample): at the exact boundary now = expiresAt - 60 the
cached credential is not valid in the claim's sense (now < expiresAt - 60
fails), yet getCachedToken does not contact the source: it returns the
cached token and leaves the cache unchanged even though a successful
source reply was available. -/
theorem token_boundary_counterexample :
    getCachedToken 40 (.ok ("newtok", 200)) ⟨"tok", 100⟩ =
      (.ok "tok", ⟨"tok", 100⟩) ∧
    ¬ ((40 : Int) < 100 - 60) := by
  refine ⟨?_, ?_⟩ <;> decide

/-- C3 (amended): getCachedToken contacts the source exactly when the
token is empty or now > expiresAt - 60 (validity is now ≤ expiresAt - 60,
not a strict bound): otherwise the cached token is returned unchanged for
every possible source outcome, and under the refresh condition a
successful source reply overwrites token and expiry and its token is
returned. -/
theorem getCachedToken_refresh_spec (now : Int) (st : TokenState) :
    (¬ (st.token = "" ∨ now > st.tokenExp - 60) →
      ∀ source, getCachedToken now source st = (.ok st.token, st)) ∧
    ((st.token = "" ∨ now > st.tokenExp - 60) →
      ∀ t x, getCachedToken now (.ok (t, x)) st = (.ok t, ⟨t, x⟩)) := by
  constructor
  · intro h source
    unfold getCachedToken
    rw [if_neg h]
  · intro h t x
    unfold getCachedToken
    rw [if_pos h]

/-- Witness for the amended C3 theorem at concrete inputs: a valid cache
is returned untouched even when the source would fail, and an empty cache
is refreshed from a successful source. -/
theorem getCachedToken_refresh_spec_witness :
    getCachedToken 0 (.error "down") ⟨"tok", 1000⟩ = (.ok "tok", ⟨"tok", 1000⟩) ∧
    getCachedToken 0 (.ok ("new", 50)) ⟨"", 0⟩ = (.ok "new", ⟨"new", 50⟩) :=
  ⟨(getCachedToken_refresh_spec 0 ⟨"tok", 1000⟩).1 (by decide) _,
   (getCachedToken_refresh_spec 0 ⟨"", 0⟩).2 (by decide) "new" 50⟩

/-! ### C5 — relay send status handling -/

/-- C5: send succeeds exactly when the response status is 202 Accepted;
any other status yields the error carrying the status text and the
response body. -/
theorem sendRawMimeMail_spec (accessToken userID mimeMessage : String)
    (resp : HttpResponse) :
    (sendRawMimeMail accessToken userID mimeMessage resp = .ok () ↔
      resp.statusCode = 202) ∧
    (resp.statusCode ≠ 202 →
      sendRawMimeMail accessToken userID mimeMessage resp =
        .error ("sendMail failed: " ++ resp.status ++ "\n" ++ resp.body)) := by
  unfold sendRawMimeMail
  by_cases h : resp.statusCode = 202
  · simp [h]
  · simp [h]

/-- Witness for C5 at concrete responses: a 202 response succeeds and a
404 response produces the error with status text and body. -/
theorem sendRawMimeMail_spec_witness :
    (sendRawMimeMail "tok" "u@x.com" "mime" ⟨404, "404 Not Found", "oops"⟩ = .ok () ↔
      (404 : Nat) = 202) ∧
    ((404 : Nat) ≠ 202 →
      sendRawMimeMail "tok" "u@x.com" "mime" ⟨404, "404 Not Found", "oops"⟩ =
        .error ("sendMail failed: " ++ "404 Not Found" ++ "\n" ++ "oops")) :=
  sendRawMimeMail_spec "tok" "u@x.com" "mime" ⟨404, "404 Not Found", "oops"⟩

/-! ### C8 — token source failure leaves the cache unchanged -/

/-- C8: when a refresh is due and the token source fails, getCachedToken
returns the wrapped source error and the cache is exactly as before, so
the next call re-evaluates the same staleness condition. -/
theorem getCachedToken_error_preserves_state (now : Int) (st : TokenState)
    (e : String) (hstale : st.token = "" ∨ now > st.tokenExp - 60) :
    getCachedToken now (.error e) st = (.error ("GetToken: " ++ e), st) := by
  unfold getCachedToken
  rw [if_pos hstale]

/-- Witness for C8 at a concrete stale cache and failing source. -/
theorem getCachedToken_error_preserves_state_witness :
    getCachedToken 0 (.error "down") ⟨"", 0⟩ =
      (.error ("GetToken: " ++ "down"), ⟨"", 0⟩) :=
  getCachedToken_error_preserves_state 0 ⟨"", 0⟩ "down" (Or.inl rfl)

/-! ### C9 — PLAIN authentication -/

/-- C9 (counterexample): on a password mismatch the authenticated flag is
left as it was, not forced to false: a session that is already
authenticated stays authenticated after a failing authentication
attempt. -/
theorem auth_mismatch_keeps_auth_counterexample :
    (Session.authPlain ⟨"sender@example.com", "password"⟩ ⟨true, none, []⟩
        "" "sender@example.com" "wrong").1 = .error "invalid username or password" ∧
    (Session.authPlain ⟨"sender@example.com", "password"⟩ ⟨true, none, []⟩
        "" "sender@example.com" "wrong").2.auth = true := by
  refine ⟨?_, ?_⟩ <;> decide

/-- C9 (amended): authentication succeeds and sets authenticated exactly
when username and password equal the configured identity; on mismatch it
fails with the authentication error and leaves the whole session state
(the authenticated flag included) unchanged. -/
theorem authPlain_spec (cfg : Config) (s : Session) (i u p : String) :
    ((Session.authPlain cfg s i u p).1 = .ok () ↔
      (u = cfg.senderEmail ∧ p = cfg.senderPassword)) ∧
    (u = cfg.senderEmail ∧ p = cfg.senderPassword →
      (Session.authPlain cfg s i u p).2 = { s with auth := true }) ∧
    (¬ (u = cfg.senderEmail ∧ p = cfg.senderPassword) →
      (Session.authPlain cfg s i u p).1 = .error "invalid username or password" ∧
      (Session.authPlain cfg s i u p).2 = s) := by
  unfold Session.authPlain
  by_cases h : u = cfg.senderEmail ∧ p = cfg.senderPassword
  · simp [h]
  · simp [h]

/-- Witness for the amended C9 theorem: matching credentials authenticate
the fresh session. -/
theorem authPlain_spec_witness :
    (Session.authPlain ⟨"a@b.com", "pw"⟩ initialSession "" "a@b.com" "pw").2 =
      { initialSession with auth := true } :=
  (authPlain_spec ⟨"a@b.com", "pw"⟩ initialSession "" "a@b.com" "pw").2.1 ⟨rfl, rfl⟩

/-! ### C10 — errors preserve session state -/

/-- C10: whenever Session.mail, Session.rcpt or Session.data returns an
error, the session state is exactly what it was before the call. -/
theorem session_errors_preserve_state (P : AddrParser)
    (relay : Message → Except String Unit) (s : Session) (f t : String)
    (raw : Except String String) :
    ((Session.mail P s f).1.isOk = false → (Session.mail P s f).2 = s) ∧
    ((Session.rcpt P s t).1.isOk = false → (Session.rcpt P s t).2 = s) ∧
    ((Session.data P relay s raw).1.isOk = false →
      (Session.data P relay s raw).2 = s) := by
  refine ⟨?_, ?_, ?_⟩
  · intro h
    exact mail_error_state_aux P s f _ _ rfl h
  · intro h
    exact rcpt_error_state_aux P s t _ _ rfl h
  · intro _
    exact data_state_unchanged P relay s raw

/-- Witness for C10: each of the three operations failing on an
unauthenticated session leaves it unchanged. -/
theorem session_errors_preserve_state_witness :
    ((Session.mail simpleAddrParser initialSession "a@x.com").2 = initialSession) ∧
    ((Session.rcpt simpleAddrParser initialSession "a@x.com").2 = initialSession) ∧
    ((Session.data simpleAddrParser (fun _ => .ok ()) initialSession
        (.ok "x")).2 = initialSession) :=
  ⟨(session_errors_preserve_state simpleAddrParser (fun _ => .ok ())
      initialSession "a@x.com" "a@x.com" (.ok "x")).1 (by decide),
   (session_errors_preserve_state simpleAddrParser (fun _ => .ok ())
      initialSession "a@x.com" "a@x.com" (.ok "x")).2.1 (by decide),
   (session_errors_preserve_state simpleAddrParser (fun _ => .ok ())
      initialSession "a@x.com" "a@x.com" (.ok "x")).2.2 (by decide)⟩

/-! ### C6 — command sequencing and the sender-before-recipients invariant -/

/-- Every single session command preserves the invariant that recipients
are only present once a sender is set. -/
theorem applyOp_preserves_inv (cfg : Config) (P : AddrParser) (s : Session)
    (op : SessionOp) (h : senderBeforeRecipients s) :
    senderBeforeRecipients (applyOp cfg P s op) := by
  cases op with
  | opAuth i u p =>
    simp only [applyOp]
    unfold Session.authPlain
    split
    · exact h
    · exact h
  | opMail f =>
    simp only [applyOp]
    unfold Session.mail
    repeat' (first | split | dsimp only)
    all_goals first
      | exact h
      | (intro _ hc; exact Option.noConfusion hc)
  | opRcpt t =>
    simp only [applyOp]
    unfold Session.rcpt
    repeat' (first | split | dsimp only)
    all_goals first
      | exact h
      | (intro _ hc; simp_all)
  | opData raw relay =>
    simp only [applyOp]
    rw [data_state_unchanged]
    exact h
  | opReset =>
    simp only [applyOp]
    exact fun hr => absurd rfl hr
  | opLogout =>
    simp only [applyOp]
    exact h

/-- Running any command sequence preserves the invariant. -/
theorem runOps_preserves_inv (cfg : Config) (P : AddrParser)
    (ops : List SessionOp) :
    ∀ s : Session, senderBeforeRecipients s →
      senderBeforeRecipients (runOps cfg P ops s) := by
  induction ops with
  | nil => exact fun s h => h
  | cons op rest ih =>
    intro s h
    unfold runOps
    rw [List.foldl_cons]
    exact ih _ (applyOp_preserves_inv cfg P s op h)

/-- C6: for an authenticated session, a second setSender, a setSender
after recipients exist, and an addRecipient without a sender all fail with
the respective 503 sequence error and leave the state unchanged; and in
every session state reachable from the initial one the recipient list is
non-empty only if the sender is set. -/
theorem session_sequencing :
    (∀ (P : AddrParser) (s : Session) (f : String), s.auth = true →
      s.sender ≠ none →
      (Session.mail P s f).1 = .error .senderAlreadySpecified ∧
      (Session.mail P s f).2 = s) ∧
    (∀ (P : AddrParser) (s : Session) (f : String), s.auth = true →
      s.sender = none → s.recipients ≠ [] →
      (Session.mail P s f).1 = .error .mailAfterRcpt ∧
      (Session.mail P s f).2 = s) ∧
    (∀ (P : AddrParser) (s : Session) (t : String), s.auth = true →
      s.sender = none →
      (Session.rcpt P s t).1 = .error .rcptBeforeMail ∧
      (Session.rcpt P s t).2 = s) ∧
    (∀ (cfg : Config) (P : AddrParser) (ops : List SessionOp),
      senderBeforeRecipients (runOps cfg P ops initialSession)) ∧
    (SMTPErr.senderAlreadySpecified.code = 503 ∧
      SMTPErr.mailAfterRcpt.code = 503 ∧ SMTPErr.rcptBeforeMail.code = 503) := by
  refine ⟨?_, ?_, ?_, ?_, by decide⟩
  · intro P s f ha hs
    cases hsen : s.sender with
    | none => exact absurd hsen hs
    | some a => constructor <;> simp [Session.mail, ha, hsen]
  · intro P s f ha hs hr
    constructor <;> simp [Session.mail, ha, hs, hr]
  · intro P s t ha hs
    constructor <;> simp [Session.rcpt, ha, hs]
  · intro cfg P ops
    exact runOps_preserves_inv cfg P ops initialSession (fun hr => absurd rfl hr)

/-- Witness for C6 at concrete sessions: a second setSender, a setSender
after a recipient, and a premature addRecipient each fail with their
sequence error, and the empty command sequence satisfies the invariant. -/
theorem session_sequencing_witness :
    ((Session.mail simpleAddrParser ⟨true, some ⟨"", "a@x.com"⟩, []⟩
        "b@y.com").1 = .error .senderAlreadySpecified) ∧
    ((Session.mail simpleAddrParser ⟨true, none, [⟨"", "c@z.com"⟩]⟩
        "b@y.com").1 = .error .mailAfterRcpt) ∧
    ((Session.rcpt simpleAddrParser ⟨true, none, []⟩
        "b@y.com").1 = .error .rcptBeforeMail) ∧
    senderBeforeRecipients
      (runOps ⟨"a@b.com", "pw"⟩ simpleAddrParser [] initialSession) :=
  ⟨(session_sequencing.1 simpleAddrParser ⟨true, some ⟨"", "a@x.com"⟩, []⟩
      "b@y.com" rfl (by decide)).1,
   (session_sequencing.2.1 simpleAddrParser ⟨true, none, [⟨"", "c@z.com"⟩]⟩
      "b@y.com" rfl rfl (by decide)).1,
   (session_sequencing.2.2.1 simpleAddrParser ⟨true, none, []⟩
      "b@y.com" rfl rfl).1,
   session_sequencing.2.2.2.1 ⟨"a@b.com", "pw"⟩ simpleAddrParser []⟩

/-! ### C2 and C4 — reconciliation of Bcc and From -/

/-- Setting one header key leaves every other key's values unchanged. -/
theorem set_values_ne (h : MailHeader) (k k2 : String) (vs : List String)
    (hne : k ≠ k2) : (h.set k2 vs).values k = h.values k := by
  unfold MailHeader.set
  simp [hne]

/-- The Bcc patch leaves every key other than Bcc unchanged. -/
theorem patchBcc_values_ne (P : AddrParser) (h : MailHeader)
    (rcpts : List Address) (k : String) (hk : k ≠ "Bcc") :
    (patchBcc P h rcpts).values k = h.values k := by
  unfold patchBcc
  dsimp only
  split
  · rfl
  · split
    · exact set_values_ne _ _ _ _ hk
    · exact set_values_ne _ _ _ _ hk

/-- The From patch leaves every key other than From unchanged. -/
theorem patchFrom_values_ne (P : AddrParser) (h : MailHeader)
    (sender : Address) (k : String) (hk : k ≠ "From") :
    (patchFrom P h sender).values k = h.values k := by
  unfold patchFrom
  split
  · rfl
  · exact set_values_ne _ _ _ _ hk

/-- The Bcc patch does not move the first From value. -/
theorem patchBcc_get_from (P : AddrParser) (h : MailHeader)
    (rcpts : List Address) : (patchBcc P h rcpts).get "From" = h.get "From" := by
  unfold MailHeader.get
  rw [patchBcc_values_ne _ _ _ _ (by decide)]

/-- The found flag of the From check is unaffected by the preceding Bcc
patch. -/
theorem fromFound_patchBcc (P : AddrParser) (h : MailHeader)
    (rcpts : List Address) (sender : Address) :
    fromFound P (patchBcc P h rcpts) sender = fromFound P h sender := by
  unfold fromFound
  rw [patchBcc_get_from]

/-- Reconciliation's Bcc values are those of the Bcc patch alone. -/
theorem reconcile_values_bcc (P : AddrParser) (sender : Address)
    (rcpts : List Address) (m : Message) :
    (reconcile P sender rcpts m).header.values "Bcc" =
      (patchBcc P m.header rcpts).values "Bcc" := by
  unfold reconcile
  dsimp only
  exact patchFrom_values_ne _ _ _ _ (by decide)

/-- C2 (counterexample): on a message whose Bcc header has two values, the
patch keeps only the first: the value b-at-y does not survive into the
reconciled Bcc header in any form, contradicting the claim that every
pre-existing Bcc value is preserved (and its address was never collected
into the present set either). -/
theorem bcc_second_value_dropped_counterexample :
    (reconcile simpleAddrParser ⟨"", "s@x.com"⟩ [⟨"", "c@z.com"⟩]
        msgTwoBcc).header.values "Bcc" = ["a@x.com, <c@z.com>"] ∧
    msgTwoBcc.header.values "Bcc" = ["a@x.com", "b@y.com"] ∧
    (∀ v ∈ (reconcile simpleAddrParser ⟨"", "s@x.com"⟩ [⟨"", "c@z.com"⟩]
        msgTwoBcc).header.values "Bcc", ¬ ("b@y.com".data <:+: v.data)) := by
  refine ⟨?_, ?_, ?_⟩ <;> decide

/-- C2 (amended): the reconciled Bcc header is a single value consisting
of the first pre-existing Bcc value with the missing recipients appended
comma-separated (just the missing list when the first Bcc value is blank
or absent); missing recipients are exactly the envelope recipients, in
order with duplicates, whose address is not among the addresses parsed
from the first value of each of To, Cc and Bcc; Bcc values beyond the
first are dropped when a patch occurs; all other headers and the body are
untouched. -/
theorem reconcile_bcc_spec (P : AddrParser) (sender : Address)
    (rcpts : List Address) (m : Message) :
    (missingRecipients P m.header rcpts =
      (rcpts.filter
        (fun r => ¬ r.address ∈ collectHeaderAddresses P m.header)).map
        Address.render) ∧
    (missingRecipients P m.header rcpts = [] →
      (reconcile P sender rcpts m).header.values "Bcc" =
        m.header.values "Bcc") ∧
    (missingRecipients P m.header rcpts ≠ [] → m.header.get "Bcc" ≠ "" →
      (reconcile P sender rcpts m).header.values "Bcc" =
        [m.header.get "Bcc" ++ ", " ++
          joinComma (missingRecipients P m.header rcpts)]) ∧
    (missingRecipients P m.header rcpts ≠ [] → m.header.get "Bcc" = "" →
      (reconcile P sender rcpts m).header.values "Bcc" =
        [joinComma (missingRecipients P m.header rcpts)]) ∧
    (∀ k, k ≠ "Bcc" → k ≠ "From" →
      (reconcile P sender rcpts m).header.values k = m.header.values k) ∧
    (reconcile P sender rcpts m).body = m.body := by
  refine ⟨rfl, ?_, ?_, ?_, ?_, rfl⟩
  · intro hm
    rw [reconcile_values_bcc]
    unfold patchBcc
    dsimp only
    rw [if_pos (by simp [hm])]
  · intro hm hb
    rw [reconcile_values_bcc]
    unfold patchBcc
    dsimp only
    rw [if_neg (by simp [List.isEmpty_iff, hm]), if_pos hb]
    simp [MailHeader.set]
  · intro hm hb
    rw [reconcile_values_bcc]
    unfold patchBcc
    dsimp only
    rw [if_neg (by simp [List.isEmpty_iff, hm]), if_neg (by simp [hb])]
    simp [MailHeader.set]
  · intro k hkb hkf
    unfold reconcile
    dsimp only
    rw [patchFrom_values_ne _ _ _ _ hkf, patchBcc_values_ne _ _ _ _ hkb]

/-- Witness for the amended C2 theorem: with an existing Bcc first value
and one missing recipient, the reconciled Bcc is the appended single
value. -/
theorem reconcile_bcc_spec_witness :
    (reconcile simpleAddrParser ⟨"", "w@x.com"⟩ [⟨"", "c@z.com"⟩]
        msgTwoBcc).header.values "Bcc" =
      [msgTwoBcc.header.get "Bcc" ++ ", " ++
        joinComma (missingRecipients simpleAddrParser msgTwoBcc.header
          [⟨"", "c@z.com"⟩])] :=
  (reconcile_bcc_spec simpleAddrParser ⟨"", "w@x.com"⟩ [⟨"", "c@z.com"⟩]
    msgTwoBcc).2.2.1 (by decide) (by decide)

/-- C4: after reconciliation the From header contains the envelope
sender: when the pre-existing From value parses to a list containing the
sender's address the From values are untouched, and otherwise (absent or
unparsable included) From becomes exactly the single rendered sender. -/
theorem reconcile_from_spec (P : AddrParser) (sender : Address)
    (rcpts : List Address) (m : Message) :
    (fromFound P m.header sender = true →
      (reconcile P sender rcpts m).header.values "From" =
        m.header.values "From") ∧
    (fromFound P m.header sender = false →
      (reconcile P sender rcpts m).header.values "From" = [sender.render]) := by
  constructor
  · intro hf
    unfold reconcile
    dsimp only
    unfold patchFrom
    rw [fromFound_patchBcc, if_pos hf]
    exact patchBcc_values_ne _ _ _ _ (by decide)
  · intro hf
    unfold reconcile
    dsimp only
    unfold patchFrom
    rw [fromFound_patchBcc, if_neg (by simp [hf])]
    simp [MailHeader.set]

/-- Witness for C4: a message with no From header gets the rendered
envelope sender as its sole From value. -/
theorem reconcile_from_spec_witness :
    (reconcile simpleAddrParser ⟨"", "s@x.com"⟩ []
        ⟨⟨fun _ => []⟩, ""⟩).header.values "From" =
      [Address.render ⟨"", "s@x.com"⟩] :=
  (reconcile_from_spec simpleAddrParser ⟨"", "s@x.com"⟩ []
    ⟨⟨fun _ => []⟩, ""⟩).2 (by decide)

/-! ### C7 — fallback synthesis round-trip -/

/-- splitAtChar finds the first occurrence of the target. -/
theorem splitAtChar_not_mem (tc : Char) (l r : List Char) (h : tc ∉ l) :
    splitAtChar tc (l ++ tc :: r) = some (l, r) := by
  induction l with
  | nil => simp [splitAtChar]
  | cons c cs ih =>
    have hc : ¬ c = tc := fun he => h (by rw [he]; exact List.mem_cons_self _ _)
    have h2 : tc ∉ cs := fun hm => h (List.mem_cons_of_mem _ hm)
    show splitAtChar tc (c :: (cs ++ tc :: r)) = some (c :: cs, r)
    unfold splitAtChar
    rw [if_neg hc, ih h2]

/-- readLine consumes one CRLF-terminated line whose content has no
newline. -/
theorem readLine_crlf (l r : List Char) (h : '\n' ∉ l) :
    readLine (l ++ '\r' :: '\n' :: r) = some (l, r) := by
  have h2 : '\n' ∉ l ++ ['\r'] := by
    intro hm
    rcases List.mem_append.mp hm with hm | hm
    · exact h hm
    · simp at hm
  have hsh : l ++ '\r' :: '\n' :: r = (l ++ ['\r']) ++ '\n' :: r := by simp
  rw [readLine, hsh, splitAtChar_not_mem _ _ _ h2]
  simp [dropTrailingCR, List.getLast?_concat, List.dropLast_concat]

/-- dropLeadingWS is the identity on a list not starting with a blank. -/
theorem dropLeadingWS_eq_self (l : List Char)
    (h : l.head? ≠ some ' ' ∧ l.head? ≠ some '\t') : dropLeadingWS l = l := by
  cases l with
  | nil => rfl
  | cons c cs =>
    unfold dropLeadingWS
    rw [if_neg]
    rintro (h1 | h1) <;> subst h1
    · exact h.1 rfl
    · exact h.2 rfl

/-- parseHeaderLine recovers key and value from a well-formed header
line. -/
theorem parseHeaderLine_keyval (k v : String) (hk : k.data ≠ [])
    (hkc : ':' ∉ k.data)
    (hkh : k.data.head? ≠ some ' ' ∧ k.data.head? ≠ some '\t')
    (hvw : dropLeadingWS v.data = v.data) :
    parseHeaderLine (k.data ++ ':' :: ' ' :: v.data) = some (k, v) := by
  obtain ⟨c, cs, hcs⟩ : ∃ c cs, k.data = c :: cs := by
    cases hkd : k.data with
    | nil => exact absurd hkd hk
    | cons c cs => exact ⟨c, cs, rfl⟩
  have hw : ¬ (c = ' ' ∨ c = '\t') := by
    rintro (h1 | h1)
    · exact hkh.1 (by rw [hcs, h1]; rfl)
    · exact hkh.2 (by rw [hcs, h1]; rfl)
  have hsplit : splitAtChar ':' (k.data ++ ':' :: ' ' :: v.data) =
      some (k.data, ' ' :: v.data) :=
    splitAtChar_not_mem ':' k.data (' ' :: v.data) hkc
  have hdl : dropLeadingWS (' ' :: v.data) = v.data := by
    unfold dropLeadingWS
    rw [if_pos (Or.inl rfl)]
    exact hvw
  rw [hcs] at hsplit ⊢
  rw [List.cons_append] at hsplit ⊢
  unfold parseHeaderLine
  dsimp only
  rw [if_neg hw, hsplit]
  dsimp only
  rw [if_neg (by simp : ¬(c :: cs = [])), hdl, ← hcs]

/-- One header-line step of readHeaders. -/
theorem readHeaders_step (n : Nat) (k v : String) (r : List Char)
    (hk : k.data ≠ []) (hkc : ':' ∉ k.data) (hkn : '\n' ∉ k.data)
    (hkh : k.data.head? ≠ some ' ' ∧ k.data.head? ≠ some '\t')
    (hvn : '\n' ∉ v.data) (hvw : dropLeadingWS v.data = v.data) :
    readHeaders (n + 1) (k.data ++ ':' :: ' ' :: (v.data ++ '\r' :: '\n' :: r)) =
      match readHeaders n r with
      | some (entries, body) => some ((k, v) :: entries, body)
      | none => none := by
  have hln : '\n' ∉ k.data ++ ':' :: ' ' :: v.data := by
    intro hm
    rcases List.mem_append.mp hm with hm | hm
    · exact hkn hm
    · simp only [List.mem_cons] at hm
      rcases hm with h1 | h1 | h1
      · exact absurd h1 (by decide)
      · exact absurd h1 (by decide)
      · exact hvn h1
  have hshape : k.data ++ ':' :: ' ' :: (v.data ++ '\r' :: '\n' :: r) =
      (k.data ++ ':' :: ' ' :: v.data) ++ '\r' :: '\n' :: r := by simp
  conv_lhs => rw [readHeaders]
  rw [hshape, readLine_crlf _ _ hln]
  dsimp only
  rw [if_neg (by simp : ¬(k.data ++ ':' :: ' ' :: v.data = [])),
    parseHeaderLine_keyval k v hk hkc hkh hvw]

/-- The blank line ends the header block. -/
theorem readHeaders_blank (n : Nat) (r : List Char) :
    readHeaders (n + 1) ('\r' :: '\n' :: r) = some ([], r) := by
  have h0 : readLine ('\r' :: '\n' :: r) = some ([], r) :=
    readLine_crlf [] r (by simp)
  unfold readHeaders
  rw [h0]
  rfl

/-- A clean string has no newline. -/
theorem cleanString_no_lf (s : String) (h : cleanString s) : '\n' ∉ s.data :=
  fun hm => (h _ hm).2 rfl

/-- A rendered address starts with an angle bracket or a quote. -/
theorem render_head_lt_or_quote (a : Address) :
    (Address.render a).data.head? = some '<' ∨
      (Address.render a).data.head? = some '"' := by
  unfold Address.render
  split
  · left; rfl
  · right; rfl

/-- A rendered address is never the empty string. -/
theorem render_data_ne_nil (a : Address) : (Address.render a).data ≠ [] := by
  rcases render_head_lt_or_quote a with h | h <;>
    (intro hx; rw [hx] at h; simp at h)

/-- A rendered address does not start with a blank. -/
theorem render_dropWS (a : Address) :
    dropLeadingWS (Address.render a).data = (Address.render a).data := by
  apply dropLeadingWS_eq_self
  rcases render_head_lt_or_quote a with h | h <;> rw [h] <;>
    exact ⟨by decide, by decide⟩

/-- Rendering a clean address yields a clean string. -/
theorem render_clean (a : Address) (h : cleanAddr a) :
    cleanString (Address.render a) := by
  obtain ⟨hn, ha⟩ := h
  unfold Address.render
  split
  · intro c hc
    rw [data_append_eq, data_append_eq] at hc
    simp only [List.mem_append] at hc
    rcases hc with (hc | hc) | hc
    · exact (by decide : cleanString "<") c hc
    · exact ha c hc
    · exact (by decide : cleanString ">") c hc
  · intro c hc
    simp only [data_append_eq, List.mem_append] at hc
    rcases hc with (((hc | hc) | hc) | hc) | hc
    · exact (by decide : cleanString "\"") c hc
    · exact hn c hc
    · exact (by decide : cleanString "\" <") c hc
    · exact ha c hc
    · exact (by decide : cleanString ">") c hc

/-- Joining clean strings yields a clean string. -/
theorem joinComma_clean (l : List String) (h : ∀ s ∈ l, cleanString s) :
    cleanString (joinComma l) := by
  induction l with
  | nil =>
    intro c hc
    have hz : (joinComma ([] : List String)).data = [] := rfl
    rw [hz] at hc
    exact absurd hc (List.not_mem_nil c)
  | cons x xs ih =>
    cases xs with
    | nil =>
      intro c hc
      exact h x (List.mem_cons_self _ _) c hc
    | cons y ys =>
      intro c hc
      have hd : (joinComma (x :: y :: ys)).data =
          x.data ++ (", ".data ++ (joinComma (y :: ys)).data) := by
        show ((x ++ ", ") ++ joinComma (y :: ys)).data = _
        rw [data_append_eq, data_append_eq, List.append_assoc]
      rw [hd] at hc
      rcases List.mem_append.mp hc with hc | hc
      · exact h x (List.mem_cons_self _ _) c hc
      rcases List.mem_append.mp hc with hc | hc
      · exact (by decide : cleanString ", ") c hc
      · exact ih (fun s hs => h s (List.mem_cons_of_mem _ hs)) c hc

/-- The comma-join of rendered addresses does not start with a blank. -/
theorem joinComma_render_dropWS (rcpts : List Address) :
    dropLeadingWS (joinComma (rcpts.map Address.render)).data =
      (joinComma (rcpts.map Address.render)).data := by
  apply dropLeadingWS_eq_self
  cases rcpts with
  | nil => exact ⟨by decide, by decide⟩
  | cons a rest =>
    have hh : (joinComma ((a :: rest).map Address.render)).data.head? =
        (Address.render a).data.head? := by
      cases rest with
      | nil => rfl
      | cons b bs =>
        show ((Address.render a ++ ", ") ++
          joinComma (Address.render b :: bs.map Address.render)).data.head? = _
        rw [data_append_eq, data_append_eq]
        obtain ⟨d, ds, hds⟩ := List.exists_cons_of_ne_nil (render_data_ne_nil a)
        rw [hds]
        rfl
    rw [hh]
    rcases render_head_lt_or_quote a with h | h <;> rw [h] <;>
      exact ⟨by decide, by decide⟩

/-- The composed fallback buffer in explicit header-line shape. -/
theorem composeFallback_shape (f t b : String) :
    (composeFallback f t b).data =
      "From".data ++ ':' :: ' ' :: (f.data ++ '\r' :: '\n' ::
      ("To".data ++ ':' :: ' ' :: (t.data ++ '\r' :: '\n' ::
      ("Subject".data ++ ':' :: ' ' :: ("(no subject)".data ++ '\r' :: '\n' ::
      ("Content-Type".data ++ ':' :: ' ' ::
        ("text/plain; charset=utf-8".data ++ '\r' :: '\n' ::
      ('\r' :: '\n' :: b.data)))))))) := by
  simp only [composeFallback, data_append_eq, List.append_assoc]
  rfl

/-- Reading back the composed fallback yields exactly the four synthesized
headers and the verbatim body. -/
theorem readMessage_compose (f t b : String)
    (hfn : '\n' ∉ f.data) (hfw : dropLeadingWS f.data = f.data)
    (htn : '\n' ∉ t.data) (htw : dropLeadingWS t.data = t.data) :
    readMessage (composeFallback f t b) =
      some ⟨MailHeader.ofEntries [("From", f), ("To", t),
        ("Subject", "(no subject)"),
        ("Content-Type", "text/plain; charset=utf-8")], b⟩ := by
  have hlen : 4 ≤ (composeFallback f t b).data.length := by
    rw [composeFallback_shape]
    simp [List.length_append]
  obtain ⟨mm, hmm⟩ : ∃ mm, (composeFallback f t b).data.length + 1 =
      mm + 1 + 1 + 1 + 1 + 1 :=
    ⟨(composeFallback f t b).data.length - 4, by omega⟩
  unfold readMessage
  rw [hmm, composeFallback_shape]
  rw [readHeaders_step _ "From" f _ (by decide) (by decide) (by decide)
    ⟨by decide, by decide⟩ hfn hfw]
  rw [readHeaders_step _ "To" t _ (by decide) (by decide) (by decide)
    ⟨by decide, by decide⟩ htn htw]
  rw [readHeaders_step _ "Subject" "(no subject)" _ (by decide) (by decide)
    (by decide) ⟨by decide, by decide⟩ (by decide) (by decide)]
  rw [readHeaders_step _ "Content-Type" "text/plain; charset=utf-8" _
    (by decide) (by decide) (by decide) ⟨by decide, by decide⟩ (by decide)
    (by decide)]
  rw [readHeaders_blank]

/-- C7: for envelope addresses free of line breaks, the synthesized
fallback parses back with From the rendered sender, To the comma-joined
rendered recipients in order, the fixed placeholder Subject, the plain
text Content-Type, and the raw bytes verbatim as body; and submitData
returns the invalid-message-format error only when the original bytes and
the fallback itself both fail to parse. -/
theorem fallback_message_spec :
    (∀ (sender : Address) (rcpts : List Address) (b : String),
      cleanAddr sender → (∀ r ∈ rcpts, cleanAddr r) →
      ∃ m, readMessage (composeFallback sender.render
          (joinComma (rcpts.map Address.render)) b) = some m ∧
        m.header.values "From" = [sender.render] ∧
        m.header.values "To" = [joinComma (rcpts.map Address.render)] ∧
        m.header.values "Subject" = ["(no subject)"] ∧
        m.header.values "Content-Type" = ["text/plain; charset=utf-8"] ∧
        m.body = b) ∧
    (∀ (P : AddrParser) (relay : Message → Except String Unit) (s : Session)
        (b : String),
      (Session.data P relay s (.ok b)).1 = .error .invalidMessageFormat →
      ∃ sender, s.sender = some sender ∧ readMessage b = none ∧
        readMessage (composeFallback sender.render
          (joinComma (s.recipients.map Address.render)) b) = none) := by
  constructor
  · intro sender rcpts b hs hr
    have hfc : cleanString sender.render := render_clean sender hs
    have htc : cleanString (joinComma (rcpts.map Address.render)) := by
      apply joinComma_clean
      intro s hsm
      rcases List.mem_map.mp hsm with ⟨r, hrm, hre⟩
      rw [← hre]
      exact render_clean r (hr r hrm)
    refine ⟨_, readMessage_compose sender.render
      (joinComma (rcpts.map Address.render)) b
      (cleanString_no_lf _ hfc) (render_dropWS sender)
      (cleanString_no_lf _ htc) (joinComma_render_dropWS rcpts),
      ?_, ?_, ?_, ?_, rfl⟩
    · simp [MailHeader.ofEntries]
    · simp [MailHeader.ofEntries]
    · simp [MailHeader.ofEntries]
    · simp [MailHeader.ofEntries]
  · intro P relay s b herr
    unfold Session.data at herr
    by_cases ha : s.auth = false
    · rw [if_pos ha] at herr
      simp at herr
    · rw [if_neg ha] at herr
      cases hsen : s.sender with
      | none =>
        rw [hsen] at herr
        simp at herr
      | some sender =>
        rw [hsen] at herr
        try dsimp only at herr
        by_cases hrc : s.recipients = []
        · rw [if_pos hrc] at herr
          simp at herr
        · rw [if_neg hrc] at herr
          try dsimp only at herr
          cases hp : readMessage b with
          | some m =>
            rw [hp] at herr
            try dsimp only at herr
            rcases hrel : relay (reconcile P sender s.recipients m) with e | u <;>
              rw [hrel] at herr <;> simp at herr
          | none =>
            rw [hp] at herr
            try dsimp only at herr
            cases hq : readMessage (composeFallback sender.render
                (joinComma (s.recipients.map Address.render)) b) with
            | none => exact ⟨sender, rfl, rfl, hq⟩
            | some m =>
              rw [hq] at herr
              try dsimp only at herr
              rcases hrel : relay (reconcile P sender s.recipients m) with e | u <;>
                rw [hrel] at herr <;> simp at herr

/-- Witness for C7: the unparsable body hello with a concrete sender and
recipient yields the fallback with placeholder subject, plain text content
type, and verbatim body. -/
theorem fallback_message_spec_witness :
    ∃ m, readMessage (composeFallback (Address.render ⟨"", "s@x.com"⟩)
        (joinComma ([⟨"", "r@y.com"⟩].map Address.render)) "hello") = some m ∧
      m.header.values "From" = [Address.render ⟨"", "s@x.com"⟩] ∧
      m.header.values "To" = [joinComma ([⟨"", "r@y.com"⟩].map Address.render)] ∧
      m.header.values "Subject" = ["(no subject)"] ∧
      m.header.values "Content-Type" = ["text/plain; charset=utf-8"] ∧
      m.body = "hello" :=
  fallback_message_spec.1 ⟨"", "s@x.com"⟩ [⟨"", "r@y.com"⟩] "hello"
    (by decide) (by decide)

end Smtp2Graph
